import Mathlib

/-!
Verification of the environment-variable reconciliation logic of
`vercel/resource_project_environment_variables.go`.

The file shallowly embeds the decision logic of that Go file:

* the data model (`EnvironmentItem`, `ClientEnvironmentVariable`);
* the matching predicate `envVarMatches`;
* the diff computed inside `Update` (lines 644-678 of the source), split
  into `computeToAdd`, `computeToRemove`, `computeUnchanged`, `clearedKeys`
  (the Go code builds the three maps in two loops; since Go map keys are
  unique, each key's placement is decided independently by the branch
  conditions, which are reproduced verbatim in `replaceCond` and the
  filters below);
* the write-only drift check `suppressWriteOnlyEnvVarUpdates`
  (modelled per-key as `isChanged`), with the sha256 digest abstracted
  as a parameter `digest : String -> String` producing the hex string
  that the Go code formats with `%x`;
* the observable call/side-effect sequences of `Update`, `Create` and
  `Delete` as event traces (`updateTrace`, `createTrace`,
  `resourceDeleteTrace`), with remote delete/create outcomes supplied
  as parameters.

Go maps are modelled as association lists (`List (String × α)`); where a
theorem needs the Go-map guarantee that keys are unique, it carries an
explicit `Nodup` hypothesis on the key list.
-/

namespace Vercel

/-- One declared/recorded environment variable (`EnvironmentItem` in the
repository, defined outside the analysed file; fields read off its uses:
`ID`, `Value`, `Target`, `CustomEnvironmentIDs`, `GitBranch`, `Sensitive`,
`Comment`). The `default` instance is the Go zero value. -/
structure EnvironmentItem where
  id : String
  value : String
  target : List String
  customEnvironmentIDs : List String
  gitBranch : Option String
  sensitive : Bool
  comment : String
deriving DecidableEq, Repr, Inhabited

/-- A live environment variable as returned by the remote API
(`client.EnvironmentVariable`): `ID`, `Key`, `Value`, `Target`,
`CustomEnvironmentIDs`, `Type`, `Decrypted`, `GitBranch`, `Comment`. -/
structure ClientEnvironmentVariable where
  id : String
  key : String
  value : String
  target : List String
  customEnvironmentIDs : List String
  type : String
  decrypted : Option Bool
  gitBranch : Option String
  comment : String
deriving DecidableEq, Repr, Inhabited

/-- Modelled from the spec: `isSameStringSet` is defined outside the
analysed file; per the spec's MatchKey ("scopes-as-set,
customScopeIDs-as-set") it compares two string lists as sets. -/
def isSameStringSet (a b : List String) : Bool :=
  a.all (fun x => b.contains x) && b.all (fun x => a.contains x)

/-- Embedding of `envVarMatches` (source lines 789-815): true when the two
environment variables match by key, target and custom_environment_ids AND
the live value is readable and equal; a non-decrypted or sensitive live
entry never matches. -/
def envVarMatches (key : String) (ee : EnvironmentItem)
    (e : ClientEnvironmentVariable) : Bool :=
  if key == e.key && isSameStringSet ee.target e.target
      && isSameStringSet ee.customEnvironmentIDs e.customEnvironmentIDs then
    if (match e.decrypted with | some d => !d | none => false) then
      false    -- We don't know if its value is encrypted.
    else if e.type == "sensitive" then
      false    -- We don't know if it's the same env var if sensitive.
    else if e.value != ee.value then
      false    -- Value mismatches, so we need to update it.
    else
      true
  else
    false

/-- An `EnvironmentItemsMap` (Go `map[string]EnvironmentItem`), modelled
as an association list. -/
abbrev EntrySet := List (String × EnvironmentItem)

/-- Map lookup on an association list (first binding wins; with unique
keys this is exactly Go map lookup). -/
def lookupKey (m : EntrySet) (k : String) : Option EnvironmentItem :=
  (m.find? (fun kv => kv.1 == k)).map (fun kv => kv.2)

/-- Go's `_, ok := m[key]` test. -/
def memKey (m : EntrySet) (k : String) : Bool :=
  (lookupKey m k).isSome

/-- Go's `m[key]` indexing, which yields the zero value for a missing
key. -/
def indexGet (m : EntrySet) (k : String) : EnvironmentItem :=
  (lookupKey m k).getD default

/-- The `envsFromAPIMap` built in `Update` (lines 645-648): a Go map
filled by iterating the API slice, so the LAST entry with a given key
wins. -/
def envsFromAPIMap (envs : List ClientEnvironmentVariable) (k : String) :
    Option ClientEnvironmentVariable :=
  envs.reverse.find? (fun e => e.key == k)

/-- The three views `Update` works with: `planEnvs` (planned state,
declared keys), `configEnvs` (declared configuration, carries the
write-only values), `stateEnvs` (prior recorded state) and the live
API snapshot `envsFromAPI`. -/
structure ReconcileInput where
  planEnvs : EntrySet
  configEnvs : EntrySet
  stateEnvs : EntrySet
  envsFromAPI : List ClientEnvironmentVariable
deriving Repr

/-- The replace condition of the second `Update` loop (line 672):
`ok && (e.ID != apiEnv.ID || !envVarMatches(ctx, key, configEnvs[key], apiEnv))`
for a prior-state binding `kv`, where `ok` also requires the key to be in
`planEnvs` (the earlier guard at line 661 already passed). -/
def replaceCond (i : ReconcileInput) (kv : String × EnvironmentItem) : Bool :=
  memKey i.planEnvs kv.1 &&
    match envsFromAPIMap i.envsFromAPI kv.1 with
    | some apiEnv =>
        kv.2.id != apiEnv.id || !envVarMatches kv.1 (indexGet i.configEnvs kv.1) apiEnv
    | none => false

/-- The `toAdd` map of `Update`: loop 1 (lines 650-656) adds every planned
key missing from the API map; loop 2 (line 674) also adds every
prior-state key satisfying `replaceCond`. Values come from
`configEnvs[key]`. -/
def computeToAdd (i : ReconcileInput) : EntrySet :=
  ((i.planEnvs.filter (fun kv => (envsFromAPIMap i.envsFromAPI kv.1).isNone)).map
      (fun kv => (kv.1, indexGet i.configEnvs kv.1)))
  ++ ((i.stateEnvs.filter (fun kv => replaceCond i kv)).map
      (fun kv => (kv.1, indexGet i.configEnvs kv.1)))

/-- The `toRemove` map of `Update` (lines 658-675): a prior-state binding
is removed when its key left the plan (line 663) or the replace condition
fires (line 673). -/
def computeToRemove (i : ReconcileInput) : EntrySet :=
  i.stateEnvs.filter (fun kv => !(memKey i.planEnvs kv.1) || replaceCond i kv)

/-- The `unchanged` map of `Update` (line 677): everything in the prior
state that hit neither branch. -/
def computeUnchanged (i : ReconcileInput) : EntrySet :=
  i.stateEnvs.filter (fun kv => memKey i.planEnvs kv.1 && !(replaceCond i kv))

/-- The keys whose private-state hash `Update` clears with
`SetKey(privateKey, nil)` (lines 666-668): exactly the prior-state keys
that left the plan. -/
def clearedKeys (i : ReconcileInput) : List String :=
  (i.stateEnvs.filter (fun kv => !(memKey i.planEnvs kv.1))).map (fun kv => kv.1)

/-! ## Drift detection (`suppressWriteOnlyEnvVarUpdates`, lines 173-198) -/

/-- Go's `strings.Trim(s, "\"")`: strip all leading and trailing quote
characters. -/
def trimQuotes (s : String) : String :=
  String.mk (((s.toList.dropWhile (fun c => c == '\"')).reverse.dropWhile
      (fun c => c == '\"')).reverse)

/-- The private-state key used for fingerprints:
`fmt.Sprintf("vercel_env_%s_%s_", projectID, teamID) + key`. -/
def privateKeyBase (projectID teamID : String) : String :=
  "vercel_env_" ++ projectID ++ "_" ++ teamID ++ "_"

/-- Per-key drift decision of `suppressWriteOnlyEnvVarUpdates`
(lines 184-195): the update is suppressed (value treated as unchanged)
only when a stored hash exists, is non-empty and — after stripping the
surrounding quotes the writer added — equals the hex digest of the
declared value; otherwise `RequiresReplace` is triggered (result
`true` = changed). `digest` abstracts `fmt.Sprintf("%x", sha256.Sum256 _)`;
`store` abstracts `req.Private.GetKey` (`none` = key absent). -/
def isChanged (digest : String → String) (store : String → Option String)
    (projectID teamID key value : String) : Bool :=
  let hash := digest value
  let storedHash := (store (privateKeyBase projectID teamID ++ key)).getD ""
  !((storedHash.length != 0) && (trimQuotes storedHash == hash))

/-! ## Observable traces of `Update`, `Create` and `Delete` -/

/-- Observable actions of the resource handlers, in program order:
private fingerprint writes (`some` digest) and clears (`none`), the
remote list/read, remote deletes and the batched remote create, the
settling sleep, diagnostics errors, and the final `resp.State.Set`. -/
inductive Event where
  | privateSet : String → Option String → Event
  | getProject : Event
  | listEnvs : Event
  | deleteCall : String → Event
  | sleepSeconds : Nat → Event
  | createBatch : List String → Event
  | addError : String → Event
  | setState : Event
deriving DecidableEq, Repr

/-- Outcome of one remote `DeleteEnvironmentVariable` call, keyed by the
environment variable's remote ID. -/
inductive DeleteOutcome where
  | success : DeleteOutcome
  | notFound : DeleteOutcome
  | failure : String → DeleteOutcome
deriving DecidableEq, Repr

/-- Whether a delete outcome is a non-not-found failure. -/
def isFailure : DeleteOutcome → Bool
  | DeleteOutcome.failure _ => true
  | _ => false

/-- The delete loop of `Update` (lines 686-709): one delete call per
`toRemove` entry; a not-found error is skipped with `continue`, any other
error adds a diagnostic and returns. Result: the events issued, and
whether the loop ran to completion. -/
def deletePhase (d : String → DeleteOutcome) : EntrySet → List Event × Bool
  | [] => ([], true)
  | kv :: rest =>
    match d kv.2.id with
    | DeleteOutcome.success =>
        let r := deletePhase d rest
        (Event.deleteCall kv.2.id :: r.1, r.2)
    | DeleteOutcome.notFound =>
        let r := deletePhase d rest
        (Event.deleteCall kv.2.id :: r.1, r.2)
    | DeleteOutcome.failure msg =>
        ([Event.deleteCall kv.2.id, Event.addError msg], false)

/-- The create step of `Update` (lines 711-749): nothing is created when
`toAdd` is empty and the new state is set; otherwise a 5 second sleep is
inserted first when `toRemove` was non-empty, then the single batched
create is issued; on failure an error is added and the handler returns
without setting state. -/
def createPhase (toRemove : EntrySet) (toAddKeys : List String)
    (createFails : Bool) : List Event :=
  if toAddKeys.isEmpty then
    [Event.setState]
  else
    (if toRemove.isEmpty then [] else [Event.sleepSeconds 5])
    ++ [Event.createBatch toAddKeys]
    ++ (if createFails then [Event.addError "create failed"] else [Event.setState])

/-- Inputs of one `Update` run: the three views plus the abstracted
digest and the remote outcomes. -/
structure UpdateEnv where
  input : ReconcileInput
  digest : String → String
  delOutcome : String → DeleteOutcome
  createFails : Bool

/-- The private-state hash writes for a set of declared values
(`Update` lines 617-623, `Create` lines 474-479). -/
def fpWriteEvents (cfg : EntrySet) (digest : String → String) : List Event :=
  cfg.map (fun kv => Event.privateSet kv.1 (some (digest kv.2.value)))

/-- The private-state hash clears for the dropped keys (`Update`
lines 666-668), one per prior-state binding that left the plan. -/
def clearEvents (i : ReconcileInput) : List Event :=
  (i.stateEnvs.filter (fun kv => !(memKey i.planEnvs kv.1))).map
    (fun kv => Event.privateSet kv.1 none)

/-- The observable trace of `Update` (lines 583-750): first the hash of
every declared (config) value is written to the private state
(lines 617-623), then the live snapshot is read (line 631), then the
diff loops run — clearing the hash of every dropped key (line 668) —
then the deletes, the optional sleep and the batched create. The clears
happen inside the second diff loop, i.e. after the list call and before
any delete; they are emitted here as one block in that position. -/
def updateTrace (u : UpdateEnv) : List Event :=
  let toRemove := computeToRemove u.input
  let del := deletePhase u.delOutcome toRemove
  fpWriteEvents u.input.configEnvs u.digest
  ++ [Event.listEnvs]
  ++ clearEvents u.input
  ++ del.1
  ++ (if del.2 then
        createPhase toRemove ((computeToAdd u.input).map Prod.fst) u.createFails
      else [])

/-- The observable trace of `Create` (lines 430-491): project lookup,
batched create, then — note: even when the create call failed, since the
error branch at lines 460-465 does not return — state conversion, the
fingerprint writes (lines 474-479) and `resp.State.Set` (line 486). -/
def createTrace (envs : EntrySet) (digest : String → String)
    (createFails : Bool) : List Event :=
  [Event.getProject, Event.createBatch (envs.map Prod.fst)]
  ++ (if createFails then [Event.addError "create failed"] else [])
  ++ fpWriteEvents envs digest
  ++ [Event.setState]

/-- The observable trace of the resource `Delete` handler
(lines 753-786): one delete call per recorded entry; ANY error — the
code checks only `err != nil`, with no not-found special case — adds a
diagnostic and returns. A not-found outcome surfaces as the error text
"not found". -/
def resourceDeleteTrace (d : String → DeleteOutcome) : EntrySet → List Event
  | [] => []
  | kv :: rest =>
    match d kv.2.id with
    | DeleteOutcome.success =>
        Event.deleteCall kv.2.id :: resourceDeleteTrace d rest
    | DeleteOutcome.notFound =>
        [Event.deleteCall kv.2.id, Event.addError "not found"]
    | DeleteOutcome.failure msg =>
        [Event.deleteCall kv.2.id, Event.addError msg]

/-- Event classifiers used by the sequencing statements. -/
def isDeleteEvent : Event → Bool
  | Event.deleteCall _ => true
  | _ => false

/-- True exactly on the batched create call. -/
def isCreateEvent : Event → Bool
  | Event.createBatch _ => true
  | _ => false

/-- True on any remote mutation (delete or create). -/
def isRemoteMutation : Event → Bool
  | Event.deleteCall _ => true
  | Event.createBatch _ => true
  | _ => false

/-! ## Concrete inputs used by counterexamples and witnesses -/

/-- A plain recorded entry with remote ID `r1` and value `x`. -/
def entryA : EnvironmentItem :=
  { id := "r1", value := "x", target := ["production"],
    customEnvironmentIDs := [], gitBranch := none,
    sensitive := false, comment := "" }

/-- A second recorded entry with remote ID `r2`. -/
def entryB : EnvironmentItem :=
  { id := "r2", value := "y", target := ["production"],
    customEnvironmentIDs := [], gitBranch := none,
    sensitive := false, comment := "" }

/-- A sensitive recorded entry with remote ID `r1`. -/
def entrySens : EnvironmentItem :=
  { id := "r1", value := "x", target := ["production"],
    customEnvironmentIDs := [], gitBranch := none,
    sensitive := true, comment := "" }

/-- The live counterpart of `entryA` (readable, matching value). -/
def apiA : ClientEnvironmentVariable :=
  { id := "r1", key := "A", value := "x", target := ["production"],
    customEnvironmentIDs := [], type := "encrypted",
    decrypted := some true, gitBranch := none, comment := "" }

/-- The live counterpart of `entrySens`: same remote ID and match key,
but marked sensitive, value withheld. -/
def apiSens : ClientEnvironmentVariable :=
  { id := "r1", key := "A", value := "", target := ["production"],
    customEnvironmentIDs := [], type := "sensitive",
    decrypted := some false, gitBranch := none, comment := "" }

/-- Key `A` declared and recorded, but absent from the live snapshot. -/
def exC1 : ReconcileInput :=
  { planEnvs := [("A", entryA)], configEnvs := [("A", entryA)],
    stateEnvs := [("A", entryA)], envsFromAPI := [] }

/-- Same shape as `exC1`, for the disjointness claim. -/
def exC2 : ReconcileInput :=
  { planEnvs := [("A", entryA)], configEnvs := [("A", entryA)],
    stateEnvs := [("A", entryA)], envsFromAPI := [] }

/-- A sensitive entry, identically declared and recorded, live snapshot
agreeing (same remote ID and match key). -/
def exC3 : ReconcileInput :=
  { planEnvs := [("A", entrySens)], configEnvs := [("A", entrySens)],
    stateEnvs := [("A", entrySens)], envsFromAPI := [apiSens] }

/-- Key `A` newly declared (absent from prior state) but already present
in the live snapshot. -/
def exC9 : ReconcileInput :=
  { planEnvs := [("A", entryA)], configEnvs := [("A", entryA)],
    stateEnvs := [], envsFromAPI := [apiA] }

/-- Two recorded entries; deleting `r1` reports not-found, `r2` would
succeed. -/
def exC6Del : String → DeleteOutcome :=
  fun s => if s == "r1" then DeleteOutcome.notFound else DeleteOutcome.success

/-- The recorded entries for the `Delete`-handler counterexample. -/
def exC6List : EntrySet := [("A", entryA), ("B", entryB)]

/-- A live entry with the same match key as `entryA` but a new remote ID
(externally recreated). -/
def apiRecreated : ClientEnvironmentVariable :=
  { id := "r9", key := "A", value := "x", target := ["production"],
    customEnvironmentIDs := [], type := "encrypted",
    decrypted := some true, gitBranch := none, comment := "" }

/-- Key `A` declared and recorded, live entry present under a different
remote ID: the replace branch fires. -/
def exC1W : ReconcileInput :=
  { planEnvs := [("A", entryA)], configEnvs := [("A", entryA)],
    stateEnvs := [("A", entryA)], envsFromAPI := [apiRecreated] }

/-- A one-entry prior state with unique keys, for the disjointness
witness. -/
def exC2W : ReconcileInput :=
  { planEnvs := [("A", entryA)], configEnvs := [("A", entryA)],
    stateEnvs := [("A", entryA)], envsFromAPI := [apiA] }

/-- Declared = prior state, live snapshot agreeing, entry readable and
not sensitive. -/
def exC3W : ReconcileInput :=
  { planEnvs := [("A", entryA)], configEnvs := [("A", entryA)],
    stateEnvs := [("A", entryA)], envsFromAPI := [apiA] }

/-- An `Update` run with one removal (`B`) and one addition (`A`), all
remote calls succeeding. -/
def exU5 : UpdateEnv :=
  { input := { planEnvs := [("A", entryA)], configEnvs := [("A", entryA)],
               stateEnvs := [("B", entryB)], envsFromAPI := [] },
    digest := fun s => s,
    delOutcome := fun _ => DeleteOutcome.success,
    createFails := false }

/-- An `Update` run whose batched create fails. -/
def exU7 : UpdateEnv :=
  { input := { planEnvs := [("A", entryA)], configEnvs := [("A", entryA)],
               stateEnvs := [("B", entryB)], envsFromAPI := [] },
    digest := fun s => s,
    delOutcome := fun _ => DeleteOutcome.success,
    createFails := true }

/-- Key `A` recorded but dropped from the declared configuration. -/
def exC8 : ReconcileInput :=
  { planEnvs := [], configEnvs := [],
    stateEnvs := [("A", entryA)], envsFromAPI := [apiA] }

/-- Key `A` declared, prior state empty, live snapshot empty. -/
def exC9W : ReconcileInput :=
  { planEnvs := [("A", entryA)], configEnvs := [("A", entryA)],
    stateEnvs := [], envsFromAPI := [] }

/-- An `Update` run with one fingerprint write (`A`), one clear and one
delete (`B`): the delete call sits at index 3 of the trace. -/
def exU10 : UpdateEnv :=
  { input := { planEnvs := [("A", entryA)], configEnvs := [("A", entryA)],
               stateEnvs := [("B", entryB)], envsFromAPI := [] },
    digest := fun s => s,
    delOutcome := fun _ => DeleteOutcome.success,
    createFails := false }

/-- The part of the `Update` trace that precedes the create step:
fingerprint writes, the list call, the fingerprint clears and the delete
loop. (`updateTrace` is this followed by the create step when the delete
loop completed.) -/
def updateFrontEvents (u : UpdateEnv) : List Event :=
  fpWriteEvents u.input.configEnvs u.digest
  ++ [Event.listEnvs]
  ++ clearEvents u.input
  ++ (deletePhase u.delOutcome (computeToRemove u.input)).1

/-! ## Helper lemmas -/

theorem memKey_iff {m : EntrySet} {k : String} :
    memKey m k = true ↔ ∃ kv ∈ m, kv.1 = k := by
  unfold memKey lookupKey
  cases h : m.find? (fun kv => kv.1 == k) with
  | none =>
    simp only [Option.map_none', Option.isSome_none]
    constructor
    · intro hc; cases hc
    · rintro ⟨kv, hmem, hk⟩
      have hnone := List.find?_eq_none.mp h kv hmem
      simp [hk] at hnone
  | some kv =>
    simp only [Option.map_some', Option.isSome_some, true_iff]
    exact ⟨kv, List.mem_of_find?_eq_some h, by simpa using List.find?_some h⟩

theorem memKey_of_mem {m : EntrySet} {k : String} {e : EnvironmentItem}
    (h : (k, e) ∈ m) : memKey m k = true :=
  memKey_iff.mpr ⟨(k, e), h, rfl⟩

theorem mem_keys_iff {l : EntrySet} {k : String} :
    k ∈ l.map Prod.fst ↔ ∃ e, (k, e) ∈ l := by
  constructor
  · intro h
    rcases List.mem_map.mp h with ⟨kv, hm, hk⟩
    exact ⟨kv.2, by rw [← hk]; simpa using hm⟩
  · rintro ⟨e, he⟩
    exact List.mem_map.mpr ⟨(k, e), he, rfl⟩

theorem eq_of_nodup_keys {l : EntrySet} (hnd : (l.map Prod.fst).Nodup)
    {kv kv' : String × EnvironmentItem} (h : kv ∈ l) (h' : kv' ∈ l)
    (hk : kv.1 = kv'.1) : kv = kv' := by
  induction l with
  | nil => cases h
  | cons a t ih =>
    rw [List.map_cons, List.nodup_cons] at hnd
    rcases List.mem_cons.mp h with h₁ | h₁ <;> rcases List.mem_cons.mp h' with h₂ | h₂
    · rw [h₁, h₂]
    · exact absurd (mem_keys_iff.mpr ⟨kv'.2, by simpa using h₂⟩)
        (by rw [← hk, h₁] at *; exact hnd.1)
    · exact absurd (mem_keys_iff.mpr ⟨kv.2, by simpa using h₁⟩)
        (by rw [hk, h₂] at *; exact hnd.1)
    · exact ih hnd.2 h₁ h₂

theorem lookupKey_eq_some_of_nodup {l : EntrySet}
    (hnd : (l.map Prod.fst).Nodup) {k : String} {e : EnvironmentItem}
    (h : (k, e) ∈ l) : lookupKey l k = some e := by
  cases hfind : l.find? (fun kv => kv.1 == k) with
  | none =>
    have := List.find?_eq_none.mp hfind (k, e) h
    simp at this
  | some kv =>
    have hm := List.mem_of_find?_eq_some hfind
    have hp : kv.1 = k := by simpa using List.find?_some hfind
    have hkv : kv = (k, e) := eq_of_nodup_keys hnd hm h (by simpa using hp)
    unfold lookupKey
    rw [hfind, hkv]
    rfl

theorem replaceCond_eq_false_of_api_none {i : ReconcileInput}
    {kv : String × EnvironmentItem}
    (h : envsFromAPIMap i.envsFromAPI kv.1 = none) :
    replaceCond i kv = false := by
  unfold replaceCond
  rw [h]
  simp

theorem replaceCond_eq_true_of_diff {i : ReconcileInput}
    {kv : String × EnvironmentItem} {a : ClientEnvironmentVariable}
    (hplan : memKey i.planEnvs kv.1 = true)
    (ha : envsFromAPIMap i.envsFromAPI kv.1 = some a)
    (hd : kv.2.id ≠ a.id ∨ envVarMatches kv.1 (indexGet i.configEnvs kv.1) a = false) :
    replaceCond i kv = true := by
  unfold replaceCond
  rw [ha, hplan]
  rcases hd with h | h
  · simp [bne_iff_ne, h]
  · simp [h]

theorem replaceCond_eq_false_of_match {i : ReconcileInput}
    {kv : String × EnvironmentItem} {a : ClientEnvironmentVariable}
    (ha : envsFromAPIMap i.envsFromAPI kv.1 = some a)
    (hid : kv.2.id = a.id)
    (hm : envVarMatches kv.1 (indexGet i.configEnvs kv.1) a = true) :
    replaceCond i kv = false := by
  unfold replaceCond
  rw [ha]
  simp [hid, hm]

theorem replaceCond_spec {i : ReconcileInput} {kv : String × EnvironmentItem}
    (h : replaceCond i kv = true) :
    memKey i.planEnvs kv.1 = true ∧
      ∃ a, envsFromAPIMap i.envsFromAPI kv.1 = some a ∧
        (kv.2.id ≠ a.id ∨ envVarMatches kv.1 (indexGet i.configEnvs kv.1) a = false) := by
  unfold replaceCond at h
  rw [Bool.and_eq_true] at h
  refine ⟨h.1, ?_⟩
  rcases ha : envsFromAPIMap i.envsFromAPI kv.1 with _ | a
  · rw [ha] at h
    cases h.2
  · rw [ha] at h
    refine ⟨a, rfl, ?_⟩
    have h2 := h.2
    rw [Bool.or_eq_true] at h2
    rcases h2 with h2 | h2
    · exact Or.inl (by simpa using h2)
    · exact Or.inr (by simpa using h2)

theorem key_mem_toAdd_of_plan {i : ReconcileInput} {k : String}
    (hplan : memKey i.planEnvs k = true)
    (hapi : envsFromAPIMap i.envsFromAPI k = none) :
    k ∈ (computeToAdd i).map Prod.fst := by
  rcases memKey_iff.mp hplan with ⟨kv, hm, hk⟩
  apply mem_keys_iff.mpr
  refine ⟨indexGet i.configEnvs k, ?_⟩
  unfold computeToAdd
  apply List.mem_append.mpr
  left
  apply List.mem_map.mpr
  refine ⟨kv, List.mem_filter.mpr ⟨hm, ?_⟩, ?_⟩
  · rw [hk, hapi]
    rfl
  · rw [hk]

theorem key_mem_toAdd_of_replace {i : ReconcileInput}
    {kv : String × EnvironmentItem} (hm : kv ∈ i.stateEnvs)
    (hrc : replaceCond i kv = true) :
    kv.1 ∈ (computeToAdd i).map Prod.fst := by
  apply mem_keys_iff.mpr
  refine ⟨indexGet i.configEnvs kv.1, ?_⟩
  unfold computeToAdd
  apply List.mem_append.mpr
  right
  exact List.mem_map.mpr ⟨kv, List.mem_filter.mpr ⟨hm, hrc⟩, rfl⟩

theorem key_mem_toAdd_cases {i : ReconcileInput} {k : String}
    (h : k ∈ (computeToAdd i).map Prod.fst) :
    (memKey i.planEnvs k = true ∧ envsFromAPIMap i.envsFromAPI k = none)
    ∨ ∃ kv ∈ i.stateEnvs, kv.1 = k ∧ replaceCond i kv = true := by
  unfold computeToAdd at h
  rw [List.map_append] at h
  rcases List.mem_append.mp h with h | h
  · left
    rw [List.map_map] at h
    rcases List.mem_map.mp h with ⟨kv, hmf, hk⟩
    rcases List.mem_filter.mp hmf with ⟨hmem, hcond⟩
    have hk1 : kv.1 = k := hk
    constructor
    · exact memKey_iff.mpr ⟨kv, hmem, hk1⟩
    · rw [← hk1]
      exact Option.isNone_iff_eq_none.mp hcond
  · right
    rw [List.map_map] at h
    rcases List.mem_map.mp h with ⟨kv, hmf, hk⟩
    rcases List.mem_filter.mp hmf with ⟨hmem, hcond⟩
    exact ⟨kv, hmem, hk, hcond⟩

/-! ## Claim C1 -/

/-- C1, counterexample: key `A` is present in both prior state and
declared configuration and has NO correlated live entry, yet `toRemove`
is empty and `A` lands in `unchanged` (and in `toAdd`), contradicting the
claim that such a key is placed in `toRemove` and never in `unchanged`. -/
theorem c1_no_live_entry_counterexample :
    memKey exC1.planEnvs "A" = true ∧ memKey exC1.stateEnvs "A" = true ∧
    envsFromAPIMap exC1.envsFromAPI "A" = none ∧
    computeToRemove exC1 = [] ∧
    "A" ∈ (computeUnchanged exC1).map Prod.fst := by decide

/-- C1 (amended): for a key present in both prior state and declared
configuration, if a live entry with that key exists and its remote ID
differs from the recorded one or `envVarMatches` fails (scope mismatch,
non-decrypted, sensitive, or value mismatch), the prior entry goes to
`toRemove`, the declared entry to `toAdd`, and the key is not in
`unchanged`; if NO live entry with that key exists, the key instead goes
to both `toAdd` and `unchanged` and not to `toRemove`. (No fingerprint
is consulted in this decision.) -/
theorem c1_replace_and_missing_live (i : ReconcileInput) (k : String)
    (e : EnvironmentItem) (hmem : (k, e) ∈ i.stateEnvs)
    (hplan : memKey i.planEnvs k = true) :
    (∀ a, envsFromAPIMap i.envsFromAPI k = some a →
        (e.id ≠ a.id ∨ envVarMatches k (indexGet i.configEnvs k) a = false) →
        (k, e) ∈ computeToRemove i ∧ k ∈ (computeToAdd i).map Prod.fst ∧
          (k, e) ∉ computeUnchanged i)
    ∧ (envsFromAPIMap i.envsFromAPI k = none →
        (k, e) ∈ computeUnchanged i ∧ k ∈ (computeToAdd i).map Prod.fst ∧
          (k, e) ∉ computeToRemove i) := by
  constructor
  · intro a ha hd
    have hrc : replaceCond i (k, e) = true :=
      replaceCond_eq_true_of_diff hplan ha hd
    refine ⟨List.mem_filter.mpr ⟨hmem, by simp [hrc]⟩,
      key_mem_toAdd_of_replace hmem hrc, ?_⟩
    intro hc
    rcases List.mem_filter.mp hc with ⟨_, hcond⟩
    simp [hrc] at hcond
  · intro ha
    have hrc : replaceCond i (k, e) = false :=
      replaceCond_eq_false_of_api_none ha
    refine ⟨List.mem_filter.mpr ⟨hmem, by simp [hplan, hrc]⟩,
      key_mem_toAdd_of_plan hplan ha, ?_⟩
    intro hc
    rcases List.mem_filter.mp hc with ⟨_, hcond⟩
    simp [hplan, hrc] at hcond

/-- C1 witness: at `exC1W` (live entry recreated under remote ID `r9`),
the replace branch fires. -/
theorem c1_replace_witness :
    ("A", entryA) ∈ computeToRemove exC1W ∧
    "A" ∈ (computeToAdd exC1W).map Prod.fst ∧
    ("A", entryA) ∉ computeUnchanged exC1W :=
  (c1_replace_and_missing_live exC1W "A" entryA (by decide) (by decide)).1
    apiRecreated (by decide) (Or.inl (by decide))

/-! ## Claim C2 -/

/-- C2, counterexample: a key declared, recorded, and absent from the
live snapshot is placed simultaneously in `toAdd` and in `unchanged`, so
the three sets are not pairwise disjoint as claimed. -/
theorem c2_overlap_counterexample :
    "A" ∈ (computeToAdd exC2).map Prod.fst ∧
    "A" ∈ (computeUnchanged exC2).map Prod.fst := by decide

/-- C2 (amended): with unique prior-state keys, `toRemove` and
`unchanged` are disjoint, but `toAdd` and `unchanged` overlap on exactly
the keys that are declared and recorded yet absent from the live
snapshot. -/
theorem c2_partition_overlap (i : ReconcileInput)
    (hnd : (i.stateEnvs.map Prod.fst).Nodup) :
    (∀ k, ¬(k ∈ (computeToRemove i).map Prod.fst ∧
            k ∈ (computeUnchanged i).map Prod.fst))
    ∧ (∀ k, (k ∈ (computeToAdd i).map Prod.fst ∧
             k ∈ (computeUnchanged i).map Prod.fst) ↔
        (memKey i.planEnvs k = true ∧ memKey i.stateEnvs k = true ∧
         envsFromAPIMap i.envsFromAPI k = none)) := by
  constructor
  · rintro k ⟨h1, h2⟩
    rcases mem_keys_iff.mp h1 with ⟨e, he⟩
    rcases mem_keys_iff.mp h2 with ⟨e', he'⟩
    rcases List.mem_filter.mp he with ⟨hm, hc1⟩
    rcases List.mem_filter.mp he' with ⟨hm', hc2⟩
    have : (k, e) = (k, e') := eq_of_nodup_keys hnd hm hm' rfl
    rw [this] at hc1
    rw [Bool.and_eq_true] at hc2
    rw [Bool.or_eq_true] at hc1
    rcases hc1 with hc1 | hc1
    · simp [hc2.1] at hc1
    · simp [hc1] at hc2
  · intro k
    constructor
    · rintro ⟨hAdd, hUnch⟩
      rcases mem_keys_iff.mp hUnch with ⟨e', he'⟩
      rcases List.mem_filter.mp he' with ⟨hm', hc2⟩
      rw [Bool.and_eq_true] at hc2
      refine ⟨hc2.1, memKey_of_mem hm', ?_⟩
      rcases key_mem_toAdd_cases hAdd with ⟨_, hnone⟩ | ⟨kv, hkm, hk1, hkrc⟩
      · exact hnone
      · have : kv = (k, e') := eq_of_nodup_keys hnd hkm hm' hk1
        rw [this] at hkrc
        simp [hkrc] at hc2
    · rintro ⟨hplan, hstate, hnone⟩
      refine ⟨key_mem_toAdd_of_plan hplan hnone, ?_⟩
      rcases memKey_iff.mp hstate with ⟨kv, hm, hk⟩
      have hrc : replaceCond i kv = false :=
        replaceCond_eq_false_of_api_none (by rwa [hk])
      apply List.mem_map.mpr
      refine ⟨kv, List.mem_filter.mpr ⟨hm, ?_⟩, hk⟩
      simp [hk, hplan, hrc]

/-- C2 witness: the disjointness of `toRemove` and `unchanged` at a
concrete input with unique keys. -/
theorem c2_partition_witness :
    ¬("A" ∈ (computeToRemove exC2W).map Prod.fst ∧
      "A" ∈ (computeUnchanged exC2W).map Prod.fst) :=
  (c2_partition_overlap exC2W (by decide)).1 "A"

/-! ## Claim C3 -/

/-- C3, counterexample: a sensitive entry, declared identically to the
prior state with the live snapshot agreeing (same remote ID, same match
key), is nevertheless placed in both `toRemove` and `toAdd` and NOT in
`unchanged` — `envVarMatches` refuses to match any sensitive live entry,
so the claim's "including entries marked sensitive" fails. -/
theorem c3_sensitive_counterexample :
    exC3.planEnvs = exC3.stateEnvs ∧ exC3.configEnvs = exC3.stateEnvs ∧
    envsFromAPIMap exC3.envsFromAPI "A" = some apiSens ∧
    apiSens.id = entrySens.id ∧
    computeToAdd exC3 = [("A", entrySens)] ∧
    computeToRemove exC3 = [("A", entrySens)] ∧
    computeUnchanged exC3 = [] := by decide

/-- C3 (amended): with unique prior-state keys, if the declared
configuration equals the prior state and for every recorded entry the
live snapshot holds an entry with the same key, the same remote ID and a
successful `envVarMatches` (which requires the entry to be readable,
non-sensitive and value-equal), then `toAdd` and `toRemove` are empty
and `unchanged` is the whole prior state. Sensitive entries can never
satisfy the match and are excluded. -/
theorem c3_no_change_no_ops (i : ReconcileInput)
    (hnd : (i.stateEnvs.map Prod.fst).Nodup)
    (hplan : i.planEnvs = i.stateEnvs) (hconfig : i.configEnvs = i.stateEnvs)
    (hlive : ∀ kv ∈ i.stateEnvs,
        (match envsFromAPIMap i.envsFromAPI kv.1 with
         | some a => kv.2.id == a.id && envVarMatches kv.1 kv.2 a
         | none => false) = true) :
    computeToAdd i = [] ∧ computeToRemove i = [] ∧
      computeUnchanged i = i.stateEnvs := by
  have hrc : ∀ kv ∈ i.stateEnvs, replaceCond i kv = false ∧
      envsFromAPIMap i.envsFromAPI kv.1 ≠ none := by
    intro kv hm
    have h := hlive kv hm
    rcases ha : envsFromAPIMap i.envsFromAPI kv.1 with _ | a
    · rw [ha] at h
      cases h
    · rw [ha] at h
      rw [Bool.and_eq_true, beq_iff_eq] at h
      have hidx : indexGet i.configEnvs kv.1 = kv.2 := by
        unfold indexGet
        rw [hconfig, lookupKey_eq_some_of_nodup hnd (by simpa using hm)]
        rfl
      exact ⟨replaceCond_eq_false_of_match ha h.1 (by rw [hidx]; exact h.2),
        by simp [ha]⟩
  have hmemplan : ∀ kv ∈ i.stateEnvs, memKey i.planEnvs kv.1 = true := by
    intro kv hm
    rw [hplan]
    exact memKey_of_mem (show (kv.1, kv.2) ∈ i.stateEnvs by simpa using hm)
  refine ⟨?_, ?_, ?_⟩
  · unfold computeToAdd
    have h1 : i.planEnvs.filter
        (fun kv => (envsFromAPIMap i.envsFromAPI kv.1).isNone) = [] := by
      rw [List.filter_eq_nil_iff]
      intro kv hm
      rw [hplan] at hm
      simpa [Option.isNone_iff_eq_none] using (hrc kv hm).2
    have h2 : i.stateEnvs.filter (fun kv => replaceCond i kv) = [] := by
      rw [List.filter_eq_nil_iff]
      intro kv hm
      simp [(hrc kv hm).1]
    rw [h1, h2]
    rfl
  · unfold computeToRemove
    rw [List.filter_eq_nil_iff]
    intro kv hm
    simp [hmemplan kv hm, (hrc kv hm).1]
  · unfold computeUnchanged
    rw [List.filter_eq_self]
    intro kv hm
    simp [hmemplan kv hm, (hrc kv hm).1]

/-- C3 witness: a readable, non-sensitive entry identically declared and
recorded, live snapshot agreeing: no operations are produced. -/
theorem c3_no_change_witness :
    computeToAdd exC3W = [] ∧ computeToRemove exC3W = [] ∧
      computeUnchanged exC3W = exC3W.stateEnvs :=
  c3_no_change_no_ops exC3W (by decide) (by decide) (by decide) (by decide)

/-! ## Claim C4 -/

/-- C4: the drift decision is "unchanged" (`isChanged = false`) exactly
when a stored digest exists under the `(projectID, teamID, key)` private
key, is non-empty, and — after stripping the quotes the writer wraps
around it — equals the digest of the candidate value's exact plaintext;
and a missing stored digest always yields "changed". -/
theorem c4_drift_decision (digest : String → String)
    (store : String → Option String) (projectID teamID key value : String) :
    (isChanged digest store projectID teamID key value = false ↔
      ∃ s, store (privateKeyBase projectID teamID ++ key) = some s ∧
        0 < s.length ∧ trimQuotes s = digest value)
    ∧ (store (privateKeyBase projectID teamID ++ key) = none →
        isChanged digest store projectID teamID key value = true) := by
  unfold isChanged
  cases hs : store (privateKeyBase projectID teamID ++ key) with
  | none =>
    simp only [hs, Option.getD_none]
    constructor
    · constructor
      · intro h
        simp at h
      · rintro ⟨s, hsome, _⟩
        cases hsome
    · intro _
      simp
  | some s =>
    simp only [hs, Option.getD_some]
    constructor
    · constructor
      · intro h
        rw [Bool.not_eq_false', Bool.and_eq_true, bne_iff_ne, beq_iff_eq] at h
        exact ⟨s, rfl, Nat.pos_of_ne_zero h.1, h.2⟩
      · rintro ⟨s', hss, hlen, htrim⟩
        cases hss
        rw [Bool.not_eq_false', Bool.and_eq_true, bne_iff_ne, beq_iff_eq]
        exact ⟨Nat.pos_iff_ne_zero.mp hlen, htrim⟩
    · intro h
      cases h

/-- C4 witness: with no stored digest the decision is "changed". -/
theorem c4_drift_witness :
    isChanged (fun s => s) (fun _ => none) "p" "t" "A" "x" = true :=
  (c4_drift_decision (fun s => s) (fun _ => none) "p" "t" "A" "x").2 rfl

/-! ## Claim C8 -/

/-- C8: a key present in the prior state but dropped from the declared
configuration lands in `toRemove` and in no other partition, and its
private-state fingerprint is cleared in the same cycle (a
`privateSet k none` event is emitted by `Update`). -/
theorem c8_removed_key (i : ReconcileInput) (k : String) (e : EnvironmentItem)
    (hmem : (k, e) ∈ i.stateEnvs) (hplan : memKey i.planEnvs k = false) :
    (k, e) ∈ computeToRemove i ∧
    k ∉ (computeToAdd i).map Prod.fst ∧
    k ∉ (computeUnchanged i).map Prod.fst ∧
    k ∈ clearedKeys i ∧
    (∀ dg dl cf, Event.privateSet k none ∈
        updateTrace { input := i, digest := dg, delOutcome := dl,
                      createFails := cf }) := by
  refine ⟨?_, ?_, ?_, ?_, ?_⟩
  · exact List.mem_filter.mpr ⟨hmem, by simp [hplan]⟩
  · intro hc
    rcases key_mem_toAdd_cases hc with ⟨hp, _⟩ | ⟨kv, hkm, hk1, hkrc⟩
    · rw [hplan] at hp
      cases hp
    · have hrp := (replaceCond_spec hkrc).1
      rw [hk1, hplan] at hrp
      cases hrp
  · intro hc
    rcases mem_keys_iff.mp hc with ⟨e', he'⟩
    rcases List.mem_filter.mp he' with ⟨_, hcond⟩
    simp [hplan] at hcond
  · exact List.mem_map.mpr ⟨(k, e), List.mem_filter.mpr ⟨hmem, by simp [hplan]⟩, rfl⟩
  · intro dg dl cf
    have hmc : Event.privateSet k none ∈ clearEvents i :=
      List.mem_map.mpr ⟨(k, e), List.mem_filter.mpr ⟨hmem, by simp [hplan]⟩, rfl⟩
    simp only [updateTrace]
    exact List.mem_append_left _ (List.mem_append_left _ (List.mem_append_right _ hmc))

/-- C8 witness: key `A` recorded but no longer declared. -/
theorem c8_removed_witness :
    ("A", entryA) ∈ computeToRemove exC8 ∧
    "A" ∉ (computeToAdd exC8).map Prod.fst ∧
    "A" ∉ (computeUnchanged exC8).map Prod.fst ∧
    "A" ∈ clearedKeys exC8 :=
  have h := c8_removed_key exC8 "A" entryA (by decide) (by decide)
  ⟨h.1, h.2.1, h.2.2.1, h.2.2.2.1⟩

/-! ## Claim C9 -/

/-- C9, counterexample: key `A` is declared and absent from the prior
state, but an entry with the same key exists in the live snapshot — and
`A` is then placed in NO partition at all (`toAdd` checks the live
snapshot, not the prior state), contradicting the claim that such a key
always lands in `toAdd`. -/
theorem c9_new_key_counterexample :
    memKey exC9.planEnvs "A" = true ∧ memKey exC9.stateEnvs "A" = false ∧
    computeToAdd exC9 = [] ∧ computeToRemove exC9 = [] ∧
    computeUnchanged exC9 = [] := by decide

/-- C9 (amended): a declared key absent from the LIVE SNAPSHOT is placed
in `toAdd` (regardless of the prior state); a declared key absent from
the prior state but present in the live snapshot appears in no partition
of the plan. -/
theorem c9_new_key_amended (i : ReconcileInput) (k : String) :
    (memKey i.planEnvs k = true → envsFromAPIMap i.envsFromAPI k = none →
      k ∈ (computeToAdd i).map Prod.fst)
    ∧ (∀ a, memKey i.stateEnvs k = false →
        envsFromAPIMap i.envsFromAPI k = some a →
        k ∉ (computeToAdd i).map Prod.fst ∧
        k ∉ (computeToRemove i).map Prod.fst ∧
        k ∉ (computeUnchanged i).map Prod.fst) := by
  constructor
  · exact fun hp hn => key_mem_toAdd_of_plan hp hn
  · intro a hstate ha
    refine ⟨?_, ?_, ?_⟩
    · intro hc
      rcases key_mem_toAdd_cases hc with ⟨_, hnone⟩ | ⟨kv, hkm, hk1, _⟩
      · rw [ha] at hnone
        cases hnone
      · have hmk := memKey_of_mem
          (show (k, kv.2) ∈ i.stateEnvs by rw [← hk1]; simpa using hkm)
        rw [hstate] at hmk
        cases hmk
    · intro hc
      rcases mem_keys_iff.mp hc with ⟨e', he'⟩
      have hmk := memKey_of_mem (List.mem_filter.mp he').1
      rw [hstate] at hmk
      cases hmk
    · intro hc
      rcases mem_keys_iff.mp hc with ⟨e', he'⟩
      have hmk := memKey_of_mem (List.mem_filter.mp he').1
      rw [hstate] at hmk
      cases hmk

/-- C9 witness: a newly declared key absent from the live snapshot is
added. -/
theorem c9_new_key_witness :
    "A" ∈ (computeToAdd exC9W).map Prod.fst :=
  (c9_new_key_amended exC9W "A").1 (by decide) (by decide)

/-! ## Trace lemmas -/

theorem deletePhase_shape {d : String → DeleteOutcome} {e : Event} :
    ∀ l : EntrySet, e ∈ (deletePhase d l).1 →
      (∃ s, e = Event.deleteCall s) ∨ ∃ msg, e = Event.addError msg := by
  intro l
  induction l with
  | nil =>
    intro h
    simp [deletePhase] at h
  | cons kv rest ih =>
    intro h
    cases hdo : d kv.2.id with
    | success =>
      simp only [deletePhase, hdo, List.mem_cons] at h
      rcases h with h | h
      · exact Or.inl ⟨kv.2.id, h⟩
      · exact ih h
    | notFound =>
      simp only [deletePhase, hdo, List.mem_cons] at h
      rcases h with h | h
      · exact Or.inl ⟨kv.2.id, h⟩
      · exact ih h
    | failure msg =>
      simp only [deletePhase, hdo, List.mem_cons, List.not_mem_nil] at h
      rcases h with h | h | h
      · exact Or.inl ⟨kv.2.id, h⟩
      · exact Or.inr ⟨msg, h⟩
      · cases h

theorem deletePhase_complete {d : String → DeleteOutcome} :
    ∀ l : EntrySet, (∀ kv ∈ l, isFailure (d kv.2.id) = false) →
      (deletePhase d l).1 = l.map (fun kv => Event.deleteCall kv.2.id) ∧
      (deletePhase d l).2 = true := by
  intro l
  induction l with
  | nil =>
    intro _
    exact ⟨rfl, rfl⟩
  | cons kv rest ih =>
    intro hal
    have hkv := hal kv (List.mem_cons_self kv rest)
    rcases ih (fun kv2 hm => hal kv2 (List.mem_cons_of_mem kv hm)) with ⟨h1, h2⟩
    cases hdo : d kv.2.id with
    | success =>
      simp only [deletePhase, hdo, List.map_cons]
      exact ⟨by rw [h1], h2⟩
    | notFound =>
      simp only [deletePhase, hdo, List.map_cons]
      exact ⟨by rw [h1], h2⟩
    | failure msg =>
      rw [hdo] at hkv
      simp [isFailure] at hkv

theorem deletePhase_aborts {d : String → DeleteOutcome} :
    ∀ (pre : EntrySet) (kv : String × EnvironmentItem) (post : EntrySet)
      (msg : String),
      (∀ kv2 ∈ pre, isFailure (d kv2.2.id) = false) →
      d kv.2.id = DeleteOutcome.failure msg →
      (deletePhase d (pre ++ kv :: post)).1 =
        pre.map (fun kv2 => Event.deleteCall kv2.2.id) ++
          [Event.deleteCall kv.2.id, Event.addError msg] ∧
      (deletePhase d (pre ++ kv :: post)).2 = false := by
  intro pre
  induction pre with
  | nil =>
    intro kv post msg _ hf
    refine ⟨?_, ?_⟩ <;> simp [deletePhase, hf]
  | cons a t ih =>
    intro kv post msg hpre hf
    have ha := hpre a (List.mem_cons_self a t)
    rcases ih kv post msg (fun kv2 hm => hpre kv2 (List.mem_cons_of_mem a hm)) hf
      with ⟨h1, h2⟩
    cases hdo : d a.2.id with
    | success =>
      constructor
      · simp only [List.cons_append, deletePhase, hdo, List.map_cons,
          List.append_eq]
        rw [h1]
      · simp only [List.cons_append, deletePhase, hdo, List.append_eq]
        exact h2
    | notFound =>
      constructor
      · simp only [List.cons_append, deletePhase, hdo, List.map_cons,
          List.append_eq]
        rw [h1]
      · simp only [List.cons_append, deletePhase, hdo, List.append_eq]
        exact h2
    | failure m2 =>
      rw [hdo] at ha
      simp [isFailure] at ha

theorem resourceDeleteTrace_aborts {d : String → DeleteOutcome} :
    ∀ (pre : EntrySet) (kv : String × EnvironmentItem) (post : EntrySet),
      (∀ kv2 ∈ pre, d kv2.2.id = DeleteOutcome.success) →
      d kv.2.id = DeleteOutcome.notFound →
      resourceDeleteTrace d (pre ++ kv :: post) =
        pre.map (fun kv2 => Event.deleteCall kv2.2.id) ++
          [Event.deleteCall kv.2.id, Event.addError "not found"] := by
  intro pre
  induction pre with
  | nil =>
    intro kv post _ hf
    simp [resourceDeleteTrace, hf]
  | cons a t ih =>
    intro kv post hpre hf
    have ha := hpre a (List.mem_cons_self a t)
    have h1 := ih kv post (fun kv2 hm => hpre kv2 (List.mem_cons_of_mem a hm)) hf
    simp only [List.cons_append, resourceDeleteTrace, ha, List.map_cons,
      List.append_eq]
    rw [h1]

theorem resourceDeleteTrace_aborts_failure {d : String → DeleteOutcome} :
    ∀ (pre : EntrySet) (kv : String × EnvironmentItem) (post : EntrySet)
      (msg : String),
      (∀ kv2 ∈ pre, d kv2.2.id = DeleteOutcome.success) →
      d kv.2.id = DeleteOutcome.failure msg →
      resourceDeleteTrace d (pre ++ kv :: post) =
        pre.map (fun kv2 => Event.deleteCall kv2.2.id) ++
          [Event.deleteCall kv.2.id, Event.addError msg] := by
  intro pre
  induction pre with
  | nil =>
    intro kv post msg _ hf
    simp [resourceDeleteTrace, hf]
  | cons a t ih =>
    intro kv post msg hpre hf
    have ha := hpre a (List.mem_cons_self a t)
    have h1 := ih kv post msg (fun kv2 hm => hpre kv2 (List.mem_cons_of_mem a hm)) hf
    simp only [List.cons_append, resourceDeleteTrace, ha, List.map_cons,
      List.append_eq]
    rw [h1]

theorem createPhase_shape (tr : EntrySet) (ks : List String) (cf : Bool) :
    ∀ e ∈ createPhase tr ks cf,
      e = Event.setState ∨ e = Event.sleepSeconds 5 ∨
      e = Event.createBatch ks ∨ e = Event.addError "create failed" := by
  intro e h
  unfold createPhase at h
  cases h1 : ks.isEmpty <;> cases h2 : tr.isEmpty <;> cases h3 : cf <;>
    simp only [h1, h2, h3, if_true, if_false, Bool.false_eq_true,
      List.nil_append, List.cons_append, List.mem_cons, List.mem_append,
      List.mem_singleton, List.not_mem_nil, or_false, false_or] at h <;>
    tauto

theorem updateFrontEvents_shape {u : UpdateEnv} {e : Event}
    (h : e ∈ updateFrontEvents u) :
    (∃ k v, e = Event.privateSet k v) ∨ e = Event.listEnvs ∨
    (∃ s, e = Event.deleteCall s) ∨ ∃ msg, e = Event.addError msg := by
  unfold updateFrontEvents at h
  rcases List.mem_append.mp h with h | h
  · rcases List.mem_append.mp h with h | h
    · rcases List.mem_append.mp h with h | h
      · rcases List.mem_map.mp h with ⟨kv, _, hk⟩
        exact Or.inl ⟨kv.1, some (u.digest kv.2.value), hk.symm⟩
      · rcases List.mem_singleton.mp h with h
        exact Or.inr (Or.inl h)
    · rcases List.mem_map.mp h with ⟨kv, _, hk⟩
      exact Or.inl ⟨kv.1, none, hk.symm⟩
  · rcases deletePhase_shape _ h with h | h
    · exact Or.inr (Or.inr (Or.inl h))
    · exact Or.inr (Or.inr (Or.inr h))

theorem updateTrace_eq_front_append (u : UpdateEnv) :
    updateTrace u = updateFrontEvents u ++
      (if (deletePhase u.delOutcome (computeToRemove u.input)).2 then
        createPhase (computeToRemove u.input)
          ((computeToAdd u.input).map Prod.fst) u.createFails
      else []) := by
  simp only [updateTrace, updateFrontEvents]

theorem sleep_mem_createPhase (tr : EntrySet) (ks : List String) (cf : Bool) :
    Event.sleepSeconds 5 ∈ createPhase tr ks cf ↔ (ks ≠ [] ∧ tr ≠ []) := by
  unfold createPhase
  cases h1 : ks.isEmpty with
  | true =>
    have hks := List.isEmpty_iff.mp h1
    subst hks
    simp
  | false =>
    have hks := List.isEmpty_eq_false.mp h1
    cases h2 : tr.isEmpty with
    | true =>
      have htr := List.isEmpty_iff.mp h2
      subst htr
      cases h3 : cf <;> simp [hks]
    | false =>
      have htr := List.isEmpty_eq_false.mp h2
      cases h3 : cf <;> simp [hks, htr]

theorem setState_not_mem_createPhase_of_fail {tr : EntrySet} {ks : List String}
    (hks : ks.isEmpty = false) :
    Event.setState ∉ createPhase tr ks true := by
  unfold createPhase
  cases h2 : tr.isEmpty <;> simp [hks]

theorem updateTrace_eq_of_ok (u : UpdateEnv)
    (hok : (deletePhase u.delOutcome (computeToRemove u.input)).2 = true) :
    updateTrace u = updateFrontEvents u ++
      createPhase (computeToRemove u.input)
        ((computeToAdd u.input).map Prod.fst) u.createFails := by
  rw [updateTrace_eq_front_append, hok]
  simp

/-! ## Claim C5 -/

/-- C5: once the delete loop has completed, every delete call in the
`Update` trace precedes the batched create call, and the 5-second
settling sleep occurs exactly when both `toRemove` and `toAdd` are
non-empty. -/
theorem c5_sequencing (u : UpdateEnv)
    (hok : (deletePhase u.delOutcome (computeToRemove u.input)).2 = true) :
    (∀ (m n : Nat) (em en : Event), (updateTrace u)[m]? = some em →
        (updateTrace u)[n]? = some en →
        isDeleteEvent em = true → isCreateEvent en = true → m < n)
    ∧ (Event.sleepSeconds 5 ∈ updateTrace u ↔
        (computeToRemove u.input ≠ [] ∧ computeToAdd u.input ≠ [])) := by
  have hsplit := updateTrace_eq_of_ok u hok
  constructor
  · intro m n em en hm hn hdel hcre
    have hmlt : m < (updateFrontEvents u).length := by
      by_contra hge
      push_neg at hge
      rw [hsplit, List.getElem?_append_right hge] at hm
      have hmem := List.getElem?_mem hm
      rcases createPhase_shape _ _ _ em hmem with h | h | h | h <;>
        simp [h, isDeleteEvent] at hdel
    have hnge : (updateFrontEvents u).length ≤ n := by
      by_contra hlt
      push_neg at hlt
      rw [hsplit, List.getElem?_append_left hlt] at hn
      have hmem := List.getElem?_mem hn
      rcases updateFrontEvents_shape hmem with ⟨k, v, h⟩ | h | ⟨s, h⟩ | ⟨msg, h⟩ <;>
        simp [h, isCreateEvent] at hcre
    exact lt_of_lt_of_le hmlt hnge
  · rw [hsplit, List.mem_append]
    constructor
    · rintro (h | h)
      · rcases updateFrontEvents_shape h with ⟨k, v, h⟩ | h | ⟨s, h⟩ | ⟨msg, h⟩ <;>
          simp at h
      · have hh := (sleep_mem_createPhase _ _ _).mp h
        exact ⟨hh.2, fun hc => hh.1 (by rw [hc]; rfl)⟩
    · rintro ⟨hr, ha⟩
      refine Or.inr ((sleep_mem_createPhase _ _ _).mpr ?_)
      exact ⟨fun hc => ha (List.map_eq_nil_iff.mp hc), hr⟩

/-- C5 witness: one removal and one addition, all deletes succeeding:
the settling sleep appears in the trace. -/
theorem c5_sequencing_witness :
    Event.sleepSeconds 5 ∈ updateTrace exU5 :=
  (c5_sequencing exU5 (by decide)).2.mpr (by decide)

/-! ## Claim C6 -/

/-- C6, counterexample: during FULL RESOURCE DELETION, a not-found
failure on the first delete is NOT treated as success: the handler
surfaces an error and the second entry's delete call is never issued,
contradicting the claim for that code path. -/
theorem c6_resource_delete_counterexample :
    exC6Del "r1" = DeleteOutcome.notFound ∧
    resourceDeleteTrace exC6Del exC6List =
      [Event.deleteCall "r1", Event.addError "not found"] ∧
    Event.deleteCall "r2" ∉ resourceDeleteTrace exC6Del exC6List := by decide

/-- C6 (amended): during `Update`'s `toRemove` processing, a not-found
delete outcome is treated as success and the loop continues (all deletes
are issued when no outcome is a real failure), while any other failure
aborts the loop after surfacing the error; during full resource
deletion, ANY failure — the not-found outcome as well as every other
failure outcome — aborts the sequence and surfaces the error. -/
theorem c6_delete_error_handling (d : String → DeleteOutcome) (l : EntrySet) :
    ((∀ kv ∈ l, isFailure (d kv.2.id) = false) →
      (deletePhase d l).1 = l.map (fun kv => Event.deleteCall kv.2.id) ∧
      (deletePhase d l).2 = true)
    ∧ (∀ pre kv post msg, l = pre ++ kv :: post →
        (∀ kv2 ∈ pre, isFailure (d kv2.2.id) = false) →
        d kv.2.id = DeleteOutcome.failure msg →
        (deletePhase d l).1 =
          pre.map (fun kv2 => Event.deleteCall kv2.2.id) ++
            [Event.deleteCall kv.2.id, Event.addError msg] ∧
        (deletePhase d l).2 = false)
    ∧ (∀ pre kv post, l = pre ++ kv :: post →
        (∀ kv2 ∈ pre, d kv2.2.id = DeleteOutcome.success) →
        d kv.2.id = DeleteOutcome.notFound →
        resourceDeleteTrace d l =
          pre.map (fun kv2 => Event.deleteCall kv2.2.id) ++
            [Event.deleteCall kv.2.id, Event.addError "not found"])
    ∧ (∀ pre kv post msg, l = pre ++ kv :: post →
        (∀ kv2 ∈ pre, d kv2.2.id = DeleteOutcome.success) →
        d kv.2.id = DeleteOutcome.failure msg →
        resourceDeleteTrace d l =
          pre.map (fun kv2 => Event.deleteCall kv2.2.id) ++
            [Event.deleteCall kv.2.id, Event.addError msg]) := by
  refine ⟨deletePhase_complete l, ?_, ?_, ?_⟩
  · intro pre kv post msg hl hpre hf
    rw [hl]
    exact deletePhase_aborts pre kv post msg hpre hf
  · intro pre kv post hl hpre hf
    rw [hl]
    exact resourceDeleteTrace_aborts pre kv post hpre hf
  · intro pre kv post msg hl hpre hf
    rw [hl]
    exact resourceDeleteTrace_aborts_failure pre kv post msg hpre hf

/-- C6 witness: in the `Update` delete loop the same not-found outcome
does NOT abort — both delete calls are issued and the loop completes. -/
theorem c6_delete_witness :
    (deletePhase exC6Del exC6List).1 =
      exC6List.map (fun kv => Event.deleteCall kv.2.id) ∧
    (deletePhase exC6Del exC6List).2 = true :=
  (c6_delete_error_handling exC6Del exC6List).1 (by decide)

/-! ## Claim C7 -/

/-- C7, counterexample: in `Create`, when the batched create call fails,
the handler still writes the fingerprint and still sets the new recorded
state (the error branch does not return), contradicting "fails with an
error and no partial recorded state is committed". -/
theorem c7_create_counterexample :
    createTrace [("A", entryA)] (fun s => String.append "h" s) true =
      [Event.getProject, Event.createBatch ["A"],
       Event.addError "create failed",
       Event.privateSet "A" (some "hx"), Event.setState] := by decide

/-- C7 (amended): in `Update`, a failed batched create aborts before the
new recorded state is set — but the fingerprint store has already been
overwritten for every declared key; in `Create`, a failed batched create
does not abort at all: fingerprints are written and the new state is set
anyway. -/
theorem c7_create_failure (u : UpdateEnv) (envs : EntrySet)
    (digest : String → String)
    (hfail : u.createFails = true)
    (hok : (deletePhase u.delOutcome (computeToRemove u.input)).2 = true)
    (hadd : computeToAdd u.input ≠ []) :
    Event.setState ∉ updateTrace u
    ∧ (∀ kv ∈ u.input.configEnvs,
        Event.privateSet kv.1 (some (u.digest kv.2.value)) ∈ updateTrace u)
    ∧ Event.setState ∈ createTrace envs digest true
    ∧ (∀ kv ∈ envs,
        Event.privateSet kv.1 (some (digest kv.2.value)) ∈
          createTrace envs digest true) := by
  refine ⟨?_, ?_, ?_, ?_⟩
  · rw [updateTrace_eq_of_ok u hok, hfail]
    intro hc
    rcases List.mem_append.mp hc with h | h
    · rcases updateFrontEvents_shape h with ⟨k, v, h⟩ | h | ⟨s, h⟩ | ⟨m2, h⟩ <;>
        simp at h
    · refine setState_not_mem_createPhase_of_fail ?_ h
      rw [List.isEmpty_eq_false]
      exact fun hc2 => hadd (List.map_eq_nil_iff.mp hc2)
  · intro kv hkv
    rw [updateTrace_eq_front_append]
    apply List.mem_append_left
    unfold updateFrontEvents
    apply List.mem_append_left
    apply List.mem_append_left
    apply List.mem_append_left
    exact List.mem_map.mpr ⟨kv, hkv, rfl⟩
  · exact List.mem_append_right _ (by simp)
  · intro kv hkv
    exact List.mem_append_left _
      (List.mem_append_right _ (List.mem_map.mpr ⟨kv, hkv, rfl⟩))

/-- C7 witness: with a failing batched create, `Create` still reaches
`resp.State.Set`. -/
theorem c7_create_failure_witness :
    Event.setState ∈ createTrace [("A", entryA)] (fun s => s) true :=
  (c7_create_failure exU7 [("A", entryA)] (fun s => s) rfl (by decide)
      (by decide)).2.2.1

/-! ## Claim C10 -/

/-- C10: in every `Update` cycle, the fingerprint digest of every key in
the declared configuration is written to the private store strictly
before any remote delete or create call appears in the trace — so a
cycle that later fails has already mutated the fingerprint store for all
declared keys. -/
theorem c10_fingerprints_before_mutations (u : UpdateEnv) (n : Nat) (e : Event)
    (hn : (updateTrace u)[n]? = some e) (hmut : isRemoteMutation e = true) :
    ∀ kv ∈ u.input.configEnvs, ∃ m, m < n ∧
      (updateTrace u)[m]? =
        some (Event.privateSet kv.1 (some (u.digest kv.2.value))) := by
  intro kv hkv
  have hsplit : updateTrace u = fpWriteEvents u.input.configEnvs u.digest ++
      ([Event.listEnvs] ++ (clearEvents u.input ++
        ((deletePhase u.delOutcome (computeToRemove u.input)).1 ++
          (if (deletePhase u.delOutcome (computeToRemove u.input)).2 then
            createPhase (computeToRemove u.input)
              ((computeToAdd u.input).map Prod.fst) u.createFails
          else [])))) := by
    simp only [updateTrace, List.append_assoc]
  have hmemfp : Event.privateSet kv.1 (some (u.digest kv.2.value)) ∈
      fpWriteEvents u.input.configEnvs u.digest :=
    List.mem_map.mpr ⟨kv, hkv, rfl⟩
  rcases List.mem_iff_getElem?.mp hmemfp with ⟨m, hm⟩
  have hmlen : m < (fpWriteEvents u.input.configEnvs u.digest).length := by
    rcases List.getElem?_eq_some.mp hm with ⟨h, _⟩
    exact h
  have hnge : (fpWriteEvents u.input.configEnvs u.digest).length ≤ n := by
    by_contra hlt
    push_neg at hlt
    rw [hsplit, List.getElem?_append_left hlt] at hn
    have hmem := List.getElem?_mem hn
    rcases List.mem_map.mp hmem with ⟨kv2, _, hk⟩
    rw [← hk] at hmut
    simp [isRemoteMutation] at hmut
  refine ⟨m, lt_of_lt_of_le hmlen hnge, ?_⟩
  rw [hsplit, List.getElem?_append_left hmlen]
  exact hm

/-- C10 witness: in `exU10` the delete call sits at index 3 and the
fingerprint write for declared key `A` indeed precedes it. -/
theorem c10_fingerprints_witness :
    ∃ m, m < 3 ∧ (updateTrace exU10)[m]? =
      some (Event.privateSet "A" (some "x")) :=
  c10_fingerprints_before_mutations exU10 3 (Event.deleteCall "r2")
    (by decide) (by decide) ("A", entryA) (by decide)

end Vercel
